import Mathlib

/-
Verification of the inboxer Gmail-client library.

The Go sources are shallowly embedded: Go strings are `String` (or `List Char`
where byte-level slicing matters), `int64` is `Int` with explicit range
hypotheses where overflow matters, slices are `List`, and a Go
`(value, error)` pair is either `Except` (when the value is meaningless on
error) or an explicit product with an `Option` error component (when the Go
code returns a partial value alongside the error).  A Go runtime panic is
modelled by an `Option` result whose `none` case marks the panic.

`namespace Inboxer` holds the embedding of `inboxer.go` and `api.go`;
`namespace Dup` holds the embedding of the unnamed near-duplicate copy of the
library surface found in the repository.
-/

namespace Inboxer

/-- Errors observable through the library's API.  `notFound` carries the text
of the `errors.New` sentinel; `numSyntax`/`numRange` model `strconv`'s
`ErrSyntax`/`ErrRange`; `corruptBase64` models `base64.CorruptInputError`;
`remote` models an arbitrary error produced by the Gmail backend. -/
inductive GoErr where
  | notFound (msg : String)
  | corruptBase64
  | numSyntax
  | numRange
  | jsonType
  | openFail
  | remote (msg : String)
deriving DecidableEq, Repr

/-- One entry of `gmail.MessagePart.Headers`. -/
structure MessageHeader where
  name : String
  value : String
deriving DecidableEq, Repr

/-- `gmail.MessagePartBody`: the `Size` field (int64) and the base64url `Data`
field, kept as a character list because the decoder walks it byte-wise. -/
structure MessagePartBody where
  size : Int
  data : List Char
deriving DecidableEq, Repr

/-- `gmail.MessagePart`: recursive, since parts nest via `Parts`. -/
inductive MessagePart where
  | mk (mimeType : String) (body : MessagePartBody) (parts : List MessagePart)

def MessagePart.mimeType : MessagePart → String
  | .mk m _ _ => m

def MessagePart.body : MessagePart → MessagePartBody
  | .mk _ b _ => b

def MessagePart.parts : MessagePart → List MessagePart
  | .mk _ _ p => p

/-- The slice of `gmail.Message.Payload` that the library reads. -/
structure MessagePayload where
  headers : List MessageHeader
  parts : List MessagePart

/-- The slice of `gmail.Message` that the library reads. -/
structure GMessage where
  id : String
  payload : MessagePayload

/-- `PartialMetadata` from `inboxer.go` (fields `From`/`To` renamed
`from_`/`to_`, both being Lean keywords/tokens).  Go zero values: empty
strings and nil slices. -/
structure PartialMetadata where
  sender : String := ""
  from_ : String := ""
  subject : String := ""
  mailingList : String := ""
  cc : List String := []
  to_ : List String := []
  threadTopic : List String := []
  deliveredTo : List String := []
deriving DecidableEq, Repr

/-- One iteration of `GetPartialMetadata`'s `switch v.Name` statement. -/
def applyHeader (info : PartialMetadata) (v : MessageHeader) : PartialMetadata :=
  if v.name = "Sender" then { info with sender := v.value }
  else if v.name = "From" then { info with from_ := v.value }
  else if v.name = "Subject" then { info with subject := v.value }
  else if v.name = "Mailing-list" then { info with mailingList := v.value }
  else if v.name = "CC" then { info with cc := info.cc ++ [v.value] }
  else if v.name = "To" then { info with to_ := info.to_ ++ [v.value] }
  else if v.name = "Thread-Topic" then { info with threadTopic := info.threadTopic ++ [v.value] }
  else if v.name = "Delivered-To" then { info with deliveredTo := info.deliveredTo ++ [v.value] }
  else info

/-- The `for _, v := range msg.Payload.Headers` loop of `GetPartialMetadata`. -/
def gpmLoop (info : PartialMetadata) : List MessageHeader → PartialMetadata
  | [] => info
  | v :: rest => gpmLoop (applyHeader info v) rest

/-- `GetPartialMetadata` from `inboxer.go`. -/
def GetPartialMetadata (msg : GMessage) : PartialMetadata :=
  gpmLoop {} msg.payload.headers

/-- Spec-side helper: the values of all headers named exactly `n`, in
encounter order. -/
def valuesOf (n : String) : List MessageHeader → List String
  | [] => []
  | h :: rest => if h.name = n then h.value :: valuesOf n rest else valuesOf n rest

/-- The eight header names `GetPartialMetadata` matches against. -/
def knownHeaderNames : List String :=
  ["Sender", "From", "Subject", "Mailing-list", "CC", "To", "Thread-Topic", "Delivered-To"]

/-- The character for decimal digit `n` (`'0' + n`). -/
def digitChar (n : Nat) : Char := Char.ofNat (48 + n)

/-- The decimal digits of `n`, most significant first: the digit output of
`strconv.FormatInt(n, 10)` for non-negative `n`. -/
def natDigits (n : Nat) : List Char :=
  if _h : n < 10 then [digitChar n]
  else natDigits (n / 10) ++ [digitChar (n % 10)]
decreasing_by exact Nat.div_lt_self (by omega) (by omega)

/-- `strconv.FormatInt(i, 10)` as a character list (ASCII, so characters
coincide with Go's bytes). -/
def formatInt (i : Int) : List Char :=
  if i < 0 then '-' :: natDigits i.natAbs else natDigits i.natAbs

/-- `strconv`'s per-character digit test `'0' <= c && c <= '9'`. -/
def charDigit (c : Char) : Option Nat :=
  if 48 ≤ c.toNat ∧ c.toNat ≤ 57 then some (c.toNat - 48) else none

/-- The digit-accumulation loop of `strconv.ParseUint` in base 10: an invalid
character returns `(0, ErrSyntax)` at once; exceeding `maxVal` returns
`(maxVal, ErrRange)` at once, as in Go. -/
def parseDigits (maxVal : Nat) : Nat → List Char → Nat × Option GoErr
  | n, [] => (n, none)
  | n, c :: rest =>
    match charDigit c with
    | none => (0, some .numSyntax)
    | some d =>
      if maxVal < n * 10 + d then (maxVal, some .numRange)
      else parseDigits maxVal (n * 10 + d) rest

/-- `strconv.ParseInt` after the sign has been stripped: `ParseUint` with the
uint64 bound followed by the int64 cutoff checks. -/
def parseSigned (neg : Bool) (digits : List Char) : Int × Option GoErr :=
  if digits = [] then (0, some .numSyntax)
  else
    match parseDigits (2 ^ 64 - 1) 0 digits with
    | (_, some GoErr.numSyntax) => (0, some .numSyntax)
    | (un, _) =>
      if neg = false ∧ 2 ^ 63 ≤ un then ((2 : Int) ^ 63 - 1, some .numRange)
      else if neg = true ∧ 2 ^ 63 < un then (-((2 : Int) ^ 63), some .numRange)
      else ((if neg then -(un : Int) else (un : Int)), none)

/-- `strconv.ParseInt(s, 10, 64)`. -/
def parseInt64 : List Char → Int × Option GoErr
  | [] => (0, some .numSyntax)
  | c :: rest =>
    if c = '+' then parseSigned false rest
    else if c = '-' then parseSigned true rest
    else parseSigned false (c :: rest)

/-- `ReceivedTime` from `inboxer.go`.  `time.Unix(tc, 0)` is represented by
its seconds argument `tc`; both the error and the success branch return
`time.Unix(tc, 0)`.  The result is `none` when the Go code panics: the slice
expression `conv[:len(conv)-3]` has a negative bound when the decimal text is
shorter than three characters. -/
def ReceivedTime (datetime : Int) : Option (Int × Option GoErr) :=
  let conv := formatInt datetime
  if conv.length < 3 then none
  else
    let r := parseInt64 (conv.take (conv.length - 3))
    some (r.1, r.2)

/-- Value of a character in the base64url alphabet (`base64.URLEncoding`'s
`encodeURL` table: `A-Z`, `a-z`, `0-9`, `-`, `_`). -/
def b64Val (c : Char) : Option Nat :=
  if 'A' ≤ c ∧ c ≤ 'Z' then some (c.toNat - 65)
  else if 'a' ≤ c ∧ c ≤ 'z' then some (c.toNat - 97 + 26)
  else if '0' ≤ c ∧ c ≤ '9' then some (c.toNat - 48 + 52)
  else if c = '-' then some 62
  else if c = '_' then some 63
  else none

/-- The quantum loop of `base64.URLEncoding.Decode` (newlines already
stripped): 4-character quanta of alphabet characters, `=` or `==` padding
allowed only in the final quantum; everything else is a `CorruptInputError`
(`none`). -/
def b64Quanta : List Char → Option (List Nat)
  | [] => some []
  | a :: b :: c :: d :: rest =>
    match b64Val a, b64Val b with
    | some va, some vb =>
      if c = '=' then
        if d = '=' then
          if rest = [] then some [va * 4 + vb / 16] else none
        else none
      else
        match b64Val c with
        | some vc =>
          if d = '=' then
            if rest = [] then some [va * 4 + vb / 16, vb % 16 * 16 + vc / 4] else none
          else
            match b64Val d with
            | some vd =>
              match b64Quanta rest with
              | some tail =>
                some ((va * 4 + vb / 16) :: (vb % 16 * 16 + vc / 4) :: (vc % 4 * 64 + vd) :: tail)
              | none => none
            | none => none
        | none => none
    | _, _ => none
  | _ => none

/-- `base64.URLEncoding.DecodeString`: Go's decoder skips CR and LF anywhere
in the input, then decodes 4-byte quanta.  `none` models the decode error;
the decoded bytes are returned as numbers (a Go string is a byte string). -/
def base64UrlDecode (s : List Char) : Option (List Nat) :=
  b64Quanta (s.filter fun c => c != '\r' && c != '\n')

/-- `decodeEmailBody` from `inboxer.go`: wraps `base64.URLEncoding.DecodeString`,
returning the decoded bytes or, as in Go, `("", err)` on a decode error. -/
def decodeEmailBody (data : List Char) : Except GoErr (List Nat) :=
  match base64UrlDecode data with
  | some bs => .ok bs
  | none => .error .corruptBase64

/-- Go's `l.MimeType == mimeType && l.Body.Size >= 1` test from `GetBody`. -/
def isMatch (mt : String) (p : MessagePart) : Bool :=
  p.mimeType == mt && decide (1 ≤ p.body.size)

/-- The `for _, v := range msg.Payload.Parts` loop of `GetBody`: for each
top-level part, first scan one level inside a `multipart/alternative` part
(returning the decode result of the first non-empty match), then test the
part itself. -/
def getBodyLoop (mt : String) : List MessagePart → Except GoErr (List Nat)
  | [] => .error (.notFound "Couldn't Read Body")
  | v :: rest =>
    match (if v.mimeType == "multipart/alternative"
        then v.parts.find? (isMatch mt) else none) with
    | some l => decodeEmailBody l.body.data
    | none =>
      if isMatch mt v then decodeEmailBody v.body.data
      else getBodyLoop mt rest

/-- `GetBody` from `inboxer.go`. -/
def GetBody (msg : GMessage) (mimeType : String) : Except GoErr (List Nat) :=
  getBodyLoop mimeType msg.payload.parts

/-- Spec-side: the part `GetBody`'s scan selects first, if any. -/
def firstMatch (mt : String) : List MessagePart → Option MessagePart
  | [] => none
  | v :: rest =>
    match (if v.mimeType == "multipart/alternative"
        then v.parts.find? (isMatch mt) else none) with
    | some l => some l
    | none => if isMatch mt v then some v else firstMatch mt rest

/-- Spec-side: a matching part of non-empty size exists at the top level or
exactly one level inside a top-level `multipart/alternative` part. -/
def hasMatch (mt : String) : List MessagePart → Bool
  | [] => false
  | v :: rest =>
    (v.mimeType == "multipart/alternative" && v.parts.any (isMatch mt))
      || isMatch mt v || hasMatch mt rest

/-- Go's int64 addition: two's-complement wraparound into
`[-2^63, 2^63 - 1]`. -/
def int64Add (a b : Int) : Int :=
  (a + b + 2 ^ 63) % 2 ^ 64 - 2 ^ 63

/-- `gmail.Label`: the two unread-count fields the library reads
(`MessagesUnread`, `ThreadsUnread`).  Both are Go int64 values, so in Go any
value a provider hands over lies in `[-2^63, 2^63 - 1]`; theorems quantifying
over counts carry that range as a hypothesis where it matters. -/
structure GLabel where
  messagesUnread : Int
  threadsUnread : Int
deriving DecidableEq, Repr

/-- `gmail.ListMessagesResponse`: the listed message stubs (only `Id` is
consumed by `getByID`). -/
structure ListMessagesResponse where
  messages : List GMessage

/-- `gmail.ModifyMessageRequest`. -/
structure ModifyMessageRequest where
  addLabelIds : List String := []
  removeLabelIds : List String := []
deriving DecidableEq, Repr

/-- One remote call issued through the Gmail SDK, with its arguments. -/
inductive Call where
  | list (q : String)
  | listMax (n : Nat)
  | get (id : String)
  | modify (id : String) (req : ModifyMessageRequest)
  | labels (name : String)
deriving DecidableEq, Repr

/-- The remote Gmail service behind `srv *gmail.Service`: the outcome of each
SDK call as a function of its arguments.  `Except.error` models a call from
which the generated SDK returns a nil response together with a non-nil
error (the SDK never returns both a response and an error). -/
structure Provider where
  listQ : String → Except GoErr ListMessagesResponse
  listMax : Nat → Except GoErr ListMessagesResponse
  msgGet : String → Except GoErr GMessage
  modify : String → ModifyMessageRequest → Except GoErr GMessage
  labelGet : String → Except GoErr GLabel

/-- `MarkAs` from `inboxer.go`. -/
def MarkAs (srv : Provider) (msg : GMessage) (req : ModifyMessageRequest) :
    Except GoErr GMessage :=
  srv.modify msg.id req

/-- `getByID` from `inboxer.go`: one `Get` call per listed message, in order,
stopping at the first failing fetch and returning the messages accumulated so
far (`msgSlice`) alongside the error.  The first component is the trace of
issued calls. -/
def getByID (srv : Provider) : List GMessage → List Call × List GMessage × Option GoErr
  | [] => ([], [], none)
  | v :: rest =>
    match srv.msgGet v.id with
    | .error e => ([Call.get v.id], [], some e)
    | .ok m =>
      let r := getByID srv rest
      (Call.get v.id :: r.1, m :: r.2.1, r.2.2)

/-- `Query` from `inboxer.go`.  When the `List` call fails, the SDK hands back
a nil response and the Go code still evaluates `inbox.Messages` in
`return inbox.Messages, err`: a nil-pointer dereference, i.e. a panic,
modelled by `none`.  The issued calls are traced in all cases. -/
def Query (srv : Provider) (query : String) :
    List Call × Option (List GMessage × Option GoErr) :=
  match srv.listQ query with
  | .error _ => ([Call.list query], none)
  | .ok inbox =>
    let r := getByID srv inbox.messages
    (Call.list query :: r.1, some r.2)

/-- `GetMessages` from `inboxer.go`: like `Query` but listing with
`MaxResults(howMany)`, and returning `msgSlice, err` (the nil slice and the
error, no dereference) when the list call fails. -/
def GetMessages (srv : Provider) (howMany : Nat) :
    List Call × Option (List GMessage × Option GoErr) :=
  match srv.listMax howMany with
  | .error e => ([Call.listMax howMany], some ([], some e))
  | .ok inbox =>
    let r := getByID srv inbox.messages
    (Call.listMax howMany :: r.1, some r.2)

/-- The fixed request of `MarkAllAsRead`: `RemoveLabelIds: []string{"UNREAD"}`. -/
def unreadReq : ModifyMessageRequest := { removeLabelIds := ["UNREAD"] }

/-- The `for _, v := range msgs` loop of `MarkAllAsRead`: one `MarkAs` per
message, stopping at the first error. -/
def markLoop (srv : Provider) : List GMessage → List Call × Option GoErr
  | [] => ([], none)
  | m :: rest =>
    match MarkAs srv m unreadReq with
    | .error e => ([Call.modify m.id unreadReq], some e)
    | .ok _ =>
      let r := markLoop srv rest
      (Call.modify m.id unreadReq :: r.1, r.2)

/-- `MarkAllAsRead` from `inboxer.go`: query for `label:UNREAD`; on a query
error return it unchanged (no modify issued); otherwise one modify per
returned message.  The outer `Option` is the panic marker inherited from
`Query`. -/
def MarkAllAsRead (srv : Provider) : List Call × Option (Option GoErr) :=
  match Query srv "label:UNREAD" with
  | (tr, none) => (tr, none)
  | (tr, some (_, some e)) => (tr, some (some e))
  | (tr, some (msgs, none)) =>
    let r := markLoop srv msgs
    (tr ++ r.1, some r.2)

/-- `CheckForUnreadByLabel` from `inboxer.go`.  The returned
`inbox.MessagesUnread + inbox.ThreadsUnread` is Go int64 addition, which
wraps around. -/
def CheckForUnreadByLabel (srv : Provider) (label : String) : Int × Option GoErr :=
  match srv.labelGet label with
  | .error e => (-1, some e)
  | .ok inbox =>
    if inbox.messagesUnread = 0 ∧ inbox.threadsUnread = 0 then (0, none)
    else (int64Add inbox.messagesUnread inbox.threadsUnread, none)

/-- `CheckForUnread` from `inboxer.go`: its body repeats
`CheckForUnreadByLabel` with the fixed label `"UNREAD"` (the sum again being
wrapping int64 addition). -/
def CheckForUnread (srv : Provider) : Int × Option GoErr :=
  match srv.labelGet "UNREAD" with
  | .error e => (-1, some e)
  | .ok inbox =>
    if inbox.messagesUnread = 0 ∧ inbox.threadsUnread = 0 then (0, none)
    else (int64Add inbox.messagesUnread inbox.threadsUnread, none)

/-- The serialized fields of `oauth2.Token` (`access_token`, `token_type`,
`refresh_token`, `expiry`).  The expiry is carried as its serialized
timestamp text, which this library never inspects or transforms. -/
structure Token where
  accessToken : String := ""
  tokenType : String := ""
  refreshToken : String := ""
  expiry : String := ""
deriving DecidableEq, Repr

/-- A JSON value — what the bytes of the token cache file denote. -/
inductive JValue where
  | jnull
  | jstr (s : String)
  | jobj (fields : List (String × JValue))

/-- `encoding/json` marshalling of `oauth2.Token`: fields in struct order;
`token_type` and `refresh_token` carry `omitempty` and are dropped when
empty; `access_token` has no `omitempty`; `expiry` also carries `omitempty`,
but a struct-typed field (`time.Time`) is never "empty", so it is always
emitted. -/
def marshalToken (t : Token) : JValue :=
  .jobj ([("access_token", JValue.jstr t.accessToken)]
    ++ (if t.tokenType = "" then [] else [("token_type", JValue.jstr t.tokenType)])
    ++ (if t.refreshToken = "" then [] else [("refresh_token", JValue.jstr t.refreshToken)])
    ++ [("expiry", JValue.jstr t.expiry)])

/-- `encoding/json` assignment of one object member into `oauth2.Token`:
tags are matched exactly first, then case-insensitively; an unknown key is
ignored; `null` leaves the field untouched; a non-string value for these
fields is an `UnmarshalTypeError`. -/
def setTokenField (t : Token) (k : String) (v : JValue) : Except GoErr Token :=
  if k = "access_token" then
    match v with
    | .jstr s => .ok { t with accessToken := s }
    | .jnull => .ok t
    | _ => .error .jsonType
  else if k = "token_type" then
    match v with
    | .jstr s => .ok { t with tokenType := s }
    | .jnull => .ok t
    | _ => .error .jsonType
  else if k = "refresh_token" then
    match v with
    | .jstr s => .ok { t with refreshToken := s }
    | .jnull => .ok t
    | _ => .error .jsonType
  else if k = "expiry" then
    match v with
    | .jstr s => .ok { t with expiry := s }
    | .jnull => .ok t
    | _ => .error .jsonType
  else if k.toLower = "access_token" then
    match v with
    | .jstr s => .ok { t with accessToken := s }
    | .jnull => .ok t
    | _ => .error .jsonType
  else if k.toLower = "token_type" then
    match v with
    | .jstr s => .ok { t with tokenType := s }
    | .jnull => .ok t
    | _ => .error .jsonType
  else if k.toLower = "refresh_token" then
    match v with
    | .jstr s => .ok { t with refreshToken := s }
    | .jnull => .ok t
    | _ => .error .jsonType
  else if k.toLower = "expiry" then
    match v with
    | .jstr s => .ok { t with expiry := s }
    | .jnull => .ok t
    | _ => .error .jsonType
  else .ok t

/-- The object-member loop of `encoding/json` decoding: members applied in
order (a later duplicate key overwrites), the first field error is saved and
decoding continues, as `d.saveError` does. -/
def unmarshalFields (t : Token) (err : Option GoErr) :
    List (String × JValue) → Token × Option GoErr
  | [] => (t, err)
  | (k, v) :: rest =>
    match setTokenField t k v with
    | .ok t2 => unmarshalFields t2 err rest
    | .error e => unmarshalFields t (err <|> some e) rest

/-- `json.Decoder.Decode` into a zero `&oauth2.Token{}`: a non-object
document is an `UnmarshalTypeError`; otherwise the members are folded over
the zero token. -/
def unmarshalToken (v : JValue) : Except GoErr Token :=
  match v with
  | .jobj fields =>
    match unmarshalFields {} none fields with
    | (t, none) => .ok t
    | (_, some e) => .error e
  | .jnull => .ok {}
  | _ => .error .jsonType

/-- The token cache file: `none` when absent, otherwise the JSON document its
bytes encode. -/
abbrev FileState := Option JValue

/-- `saveToken` from `api.go`: opens with `O_TRUNC|O_CREATE` and writes the
JSON encoding of the token, whatever the file held before. -/
def saveToken (fs : FileState) (token : Token) : FileState :=
  let _ := fs
  some (marshalToken token)

/-- `tokenFromFile` from `api.go`: the `os.Open` error when the file is
absent, otherwise JSON decoding. -/
def tokenFromFile (fs : FileState) : Except GoErr Token :=
  match fs with
  | none => .error .openFail
  | some v => unmarshalToken v

end Inboxer

namespace Dup

open Inboxer

/-- The `switch v.Name` iteration of the duplicate copy's
`GetPartialMetadata` (token-identical to the primary copy's). -/
def applyHeader (info : PartialMetadata) (v : MessageHeader) : PartialMetadata :=
  if v.name = "Sender" then { info with sender := v.value }
  else if v.name = "From" then { info with from_ := v.value }
  else if v.name = "Subject" then { info with subject := v.value }
  else if v.name = "Mailing-list" then { info with mailingList := v.value }
  else if v.name = "CC" then { info with cc := info.cc ++ [v.value] }
  else if v.name = "To" then { info with to_ := info.to_ ++ [v.value] }
  else if v.name = "Thread-Topic" then { info with threadTopic := info.threadTopic ++ [v.value] }
  else if v.name = "Delivered-To" then { info with deliveredTo := info.deliveredTo ++ [v.value] }
  else info

/-- The header loop of the duplicate copy's `GetPartialMetadata`. -/
def gpmLoop (info : PartialMetadata) : List MessageHeader → PartialMetadata
  | [] => info
  | v :: rest => gpmLoop (applyHeader info v) rest

/-- `GetPartialMetadata` from the duplicate copy. -/
def GetPartialMetadata (msg : GMessage) : PartialMetadata :=
  gpmLoop {} msg.payload.headers

/-- `FromBase64` from the duplicate copy: the same wrapper around
`base64.URLEncoding.DecodeString` as the primary copy's `decodeEmailBody`. -/
def FromBase64 (data : List Char) : Except GoErr (List Nat) :=
  match base64UrlDecode data with
  | some bs => .ok bs
  | none => .error .corruptBase64

/-- `ReceivedTime` from the duplicate copy: identical to the primary copy's
except that the error branch returns `time.Unix(0, 0)` instead of
`time.Unix(tc, 0)`. -/
def ReceivedTime (datetime : Int) : Option (Int × Option GoErr) :=
  let conv := formatInt datetime
  if conv.length < 3 then none
  else
    match parseInt64 (conv.take (conv.length - 3)) with
    | (_, some e) => some (0, some e)
    | (tc, none) => some (tc, none)

/-- The part loop of the duplicate copy's `GetBody`: identical to the primary
copy's except for the sentinel text `"couldn't read body"`. -/
def getBodyLoop (mt : String) : List MessagePart → Except GoErr (List Nat)
  | [] => .error (.notFound "couldn't read body")
  | v :: rest =>
    match (if v.mimeType == "multipart/alternative"
        then v.parts.find? (isMatch mt) else none) with
    | some l => FromBase64 l.body.data
    | none =>
      if isMatch mt v then FromBase64 v.body.data
      else getBodyLoop mt rest

/-- `GetBody` from the duplicate copy. -/
def GetBody (msg : GMessage) (mimeType : String) : Except GoErr (List Nat) :=
  getBodyLoop mimeType msg.payload.parts

/-- `CheckForUnreadByLabel` from the duplicate copy (token-identical to the
primary copy's, wrapping int64 sum included). -/
def CheckForUnreadByLabel (srv : Provider) (label : String) : Int × Option GoErr :=
  match srv.labelGet label with
  | .error e => (-1, some e)
  | .ok inbox =>
    if inbox.messagesUnread = 0 ∧ inbox.threadsUnread = 0 then (0, none)
    else (int64Add inbox.messagesUnread inbox.threadsUnread, none)

end Dup

open Inboxer

/-- The claim's example message: a single `multipart/alternative` top-level
part holding a zero-size `text/plain` sub-part and a non-empty `text/html`
sub-part whose data decodes to `<b>hi</b>`. -/
def altMsg : GMessage :=
  ⟨"alt", ⟨[], [.mk "multipart/alternative" ⟨0, []⟩
    [.mk "text/plain" ⟨0, []⟩ [],
     .mk "text/html" ⟨9, "PGI-aGk8L2I-".data⟩ []]]⟩⟩

/-- A message whose only match sits two multipart levels deep
(`multipart/mixed` → `multipart/alternative` → `text/plain`). -/
def deepMsg : GMessage :=
  ⟨"deep", ⟨[], [.mk "multipart/mixed" ⟨0, []⟩
    [.mk "multipart/alternative" ⟨0, []⟩
      [.mk "text/plain" ⟨2, "aGk=".data⟩ []]]]⟩⟩

/-- A top-level part that matches the requested MIME type with non-empty
size but whose body data (a single `!`) is not valid base64url. -/
def badB64Msg : GMessage :=
  ⟨"bad", ⟨[], [.mk "text/plain" ⟨1, ['!']⟩ []]⟩⟩

/-- A message with no payload parts at all (no match for any MIME type). -/
def noMatchMsg : GMessage :=
  ⟨"nm", ⟨[], []⟩⟩

/-- A concrete message whose headers all fall outside the known set (one of
them only differing in case from a known name). -/
def c9Msg : GMessage :=
  ⟨"m1", ⟨[⟨"Cc", "alice@example.com"⟩, ⟨"X-Custom", "z"⟩], []⟩⟩

/-- A provider whose label fetch yields zero unread counts for `UNREAD` and
an error for any other label. -/
def c4Provider : Provider :=
  { listQ := fun _ => .error (.remote "unused")
    listMax := fun _ => .error (.remote "unused")
    msgGet := fun _ => .error (.remote "unused")
    modify := fun _ _ => .error (.remote "unused")
    labelGet := fun l =>
      if l = "UNREAD" then .ok ⟨0, 0⟩ else .error (.remote "no such label") }

/-- A provider whose label carries 2^62 unread messages and 2^62 unread
threads: legal non-negative int64 counts whose int64 sum wraps to -2^63. -/
def overflowProvider : Provider :=
  { listQ := fun _ => .error (.remote "unused")
    listMax := fun _ => .error (.remote "unused")
    msgGet := fun _ => .error (.remote "unused")
    modify := fun _ _ => .error (.remote "unused")
    labelGet := fun _ => .ok ⟨2 ^ 62, 2 ^ 62⟩ }

/-- A provider whose list calls fail outright (the SDK hands back a nil
response and an error). -/
def listFailProvider : Provider :=
  { listQ := fun _ => .error (.remote "list: network unreachable")
    listMax := fun _ => .error (.remote "list: network unreachable")
    msgGet := fun _ => .error (.remote "unused")
    modify := fun _ _ => .error (.remote "unused")
    labelGet := fun _ => .error (.remote "unused") }

/-- A provider listing exactly one message, every per-ID fetch succeeding. -/
def oneMsgProvider : Provider :=
  { listQ := fun _ => .ok ⟨[⟨"id1", ⟨[], []⟩⟩]⟩
    listMax := fun _ => .ok ⟨[⟨"id1", ⟨[], []⟩⟩]⟩
    msgGet := fun i => .ok ⟨i, ⟨[⟨"Subject", "hello"⟩], []⟩⟩
    modify := fun i _ => .ok ⟨i, ⟨[], []⟩⟩
    labelGet := fun _ => .ok ⟨1, 0⟩ }

/-- A provider listing two messages whose second per-ID fetch fails. -/
def fetchFailProvider : Provider :=
  { listQ := fun _ => .ok ⟨[⟨"a", ⟨[], []⟩⟩, ⟨"b", ⟨[], []⟩⟩]⟩
    listMax := fun _ => .ok ⟨[⟨"a", ⟨[], []⟩⟩, ⟨"b", ⟨[], []⟩⟩]⟩
    msgGet := fun i =>
      if i = "b" then .error (.remote "rate limited") else .ok ⟨i, ⟨[], []⟩⟩
    modify := fun i _ => .ok ⟨i, ⟨[], []⟩⟩
    labelGet := fun _ => .error (.remote "unused") }

/-- A provider listing two messages whose second modify call fails. -/
def modifyFailProvider : Provider :=
  { listQ := fun _ => .ok ⟨[⟨"a", ⟨[], []⟩⟩, ⟨"b", ⟨[], []⟩⟩]⟩
    listMax := fun _ => .ok ⟨[⟨"a", ⟨[], []⟩⟩, ⟨"b", ⟨[], []⟩⟩]⟩
    msgGet := fun i => .ok ⟨i, ⟨[], []⟩⟩
    modify := fun i _ =>
      if i = "b" then .error (.remote "modify failed") else .ok ⟨i, ⟨[], []⟩⟩
    labelGet := fun _ => .error (.remote "unused") }

theorem getLastD_cons_eq (a d : String) (l : List String) :
    (a :: l).getLast?.getD d = l.getLast?.getD a := by
  have h := List.getLastD_cons d a l
  simpa [List.getLastD_eq_getLast?] using h

theorem gpmLoop_spec (hs : List MessageHeader) (info : PartialMetadata) :
    gpmLoop info hs =
      { sender := (valuesOf "Sender" hs).getLastD info.sender
        from_ := (valuesOf "From" hs).getLastD info.from_
        subject := (valuesOf "Subject" hs).getLastD info.subject
        mailingList := (valuesOf "Mailing-list" hs).getLastD info.mailingList
        cc := info.cc ++ valuesOf "CC" hs
        to_ := info.to_ ++ valuesOf "To" hs
        threadTopic := info.threadTopic ++ valuesOf "Thread-Topic" hs
        deliveredTo := info.deliveredTo ++ valuesOf "Delivered-To" hs } := by
  induction hs generalizing info with
  | nil => simp [gpmLoop, valuesOf]
  | cons v rest ih =>
    rw [gpmLoop, ih]
    unfold applyHeader
    split_ifs with h1 h2 h3 h4 h5 h6 h7 h8 <;>
      simp_all [valuesOf, getLastD_cons_eq]

theorem valuesOf_eq_nil_of_not_mem (n : String) (hs : List MessageHeader)
    (h : ∀ hd ∈ hs, hd.name ≠ n) : valuesOf n hs = [] := by
  induction hs with
  | nil => rfl
  | cons v rest ih =>
    have hv : v.name ≠ n := h v (by simp)
    simp [valuesOf, hv]
    exact ih fun hd hmem => h hd (by simp [hmem])

theorem natDigits_small (n : Nat) (h : n < 10) : natDigits n = [digitChar n] := by
  rw [natDigits, dif_pos h]

theorem natDigits_step (n : Nat) (h : 10 ≤ n) :
    natDigits n = natDigits (n / 10) ++ [digitChar (n % 10)] := by
  rw [natDigits, dif_neg (by omega)]

theorem digitChar_bound (d : Nat) (h : d < 10) :
    48 ≤ (digitChar d).toNat ∧ (digitChar d).toNat ≤ 57 := by
  interval_cases d <;> decide

theorem charDigit_digitChar (d : Nat) (h : d < 10) : charDigit (digitChar d) = some d := by
  interval_cases d <;> decide

theorem natDigits_digit_bound (n : Nat) :
    ∀ c ∈ natDigits n, 48 ≤ c.toNat ∧ c.toNat ≤ 57 := by
  induction n using Nat.strong_induction_on with
  | _ n ih =>
    by_cases h : n < 10
    · rw [natDigits_small n h]
      intro c hc
      simp only [List.mem_singleton] at hc
      subst hc
      exact digitChar_bound n h
    · rw [natDigits_step n (by omega)]
      intro c hc
      rcases List.mem_append.mp hc with h1 | h2
      · exact ih (n / 10) (Nat.div_lt_self (by omega) (by omega)) c h1
      · simp only [List.mem_singleton] at h2
        subst h2
        exact digitChar_bound (n % 10) (Nat.mod_lt _ (by omega))

theorem natDigits_ne_nil (n : Nat) : natDigits n ≠ [] := by
  by_cases h : n < 10
  · rw [natDigits_small n h]; simp
  · rw [natDigits_step n (by omega)]; simp

theorem natDigits_length_pos (n : Nat) : 1 ≤ (natDigits n).length := by
  have := natDigits_ne_nil n
  cases hn : natDigits n with
  | nil => exact absurd hn this
  | cons a l => simp

/-- C2: `GetPartialMetadata` is a pure single-pass function over the message's
header list using case-sensitive exact match against the eight names Sender,
From, Subject, Mailing-list, CC, To, Thread-Topic, Delivered-To: each
occurrence of CC, To, Thread-Topic, or Delivered-To appends its value to the
corresponding slice preserving duplicates and encounter order, while for
Sender, From, Subject, and Mailing-list the last occurrence wins; headers
whose name differs in case or lies outside the set are ignored (the result is
fully determined by the exactly-matching headers). -/
theorem getPartialMetadata_characterization (msg : GMessage) :
    GetPartialMetadata msg =
      { sender := (valuesOf "Sender" msg.payload.headers).getLastD ""
        from_ := (valuesOf "From" msg.payload.headers).getLastD ""
        subject := (valuesOf "Subject" msg.payload.headers).getLastD ""
        mailingList := (valuesOf "Mailing-list" msg.payload.headers).getLastD ""
        cc := valuesOf "CC" msg.payload.headers
        to_ := valuesOf "To" msg.payload.headers
        threadTopic := valuesOf "Thread-Topic" msg.payload.headers
        deliveredTo := valuesOf "Delivered-To" msg.payload.headers } := by
  have h := gpmLoop_spec msg.payload.headers {}
  simpa [GetPartialMetadata] using h

/-- C9: for every message whose header list contains no header name in the
known eight-name set, `GetPartialMetadata` returns the record whose scalar
fields are all `""` and whose slice fields are all nil; it always returns a
record (the function is total) and absence of a header is never an error. -/
theorem getPartialMetadata_all_empty (msg : GMessage)
    (h : ∀ hd ∈ msg.payload.headers, hd.name ∉ knownHeaderNames) :
    GetPartialMetadata msg =
      { sender := "", from_ := "", subject := "", mailingList := ""
        cc := [], to_ := [], threadTopic := [], deliveredTo := [] } := by
  have hnil : ∀ n ∈ knownHeaderNames, valuesOf n msg.payload.headers = [] := by
    intro n hn
    apply valuesOf_eq_nil_of_not_mem
    intro hd hmem heq
    exact h hd hmem (heq ▸ hn)
  rw [GetPartialMetadata, gpmLoop_spec]
  rw [hnil "Sender" (by simp [knownHeaderNames]),
    hnil "From" (by simp [knownHeaderNames]),
    hnil "Subject" (by simp [knownHeaderNames]),
    hnil "Mailing-list" (by simp [knownHeaderNames]),
    hnil "CC" (by simp [knownHeaderNames]),
    hnil "To" (by simp [knownHeaderNames]),
    hnil "Thread-Topic" (by simp [knownHeaderNames]),
    hnil "Delivered-To" (by simp [knownHeaderNames])]
  rfl

theorem getPartialMetadata_all_empty_witness :
    GetPartialMetadata c9Msg =
      { sender := "", from_ := "", subject := "", mailingList := ""
        cc := [], to_ := [], threadTopic := [], deliveredTo := [] } :=
  getPartialMetadata_all_empty c9Msg (by decide)

theorem parseDigits_append (maxVal : Nat) (l1 l2 : List Char) (acc : Nat) :
    parseDigits maxVal acc (l1 ++ l2) =
      match parseDigits maxVal acc l1 with
      | (n, none) => parseDigits maxVal n l2
      | (n, some e) => (n, some e) := by
  induction l1 generalizing acc with
  | nil => simp [parseDigits]
  | cons c rest ih =>
    simp only [List.cons_append, parseDigits]
    cases hc : charDigit c with
    | none => rfl
    | some d =>
      by_cases hov : maxVal < acc * 10 + d
      · simp [hov]
      · simp [hov, ih]

theorem parseDigits_natDigits (maxVal : Nat) (n : Nat) :
    ∀ acc, acc * 10 ^ (natDigits n).length + n ≤ maxVal →
      parseDigits maxVal acc (natDigits n) =
        (acc * 10 ^ (natDigits n).length + n, none) := by
  induction n using Nat.strong_induction_on with
  | _ n ih =>
    intro acc hb
    by_cases h : n < 10
    · rw [natDigits_small n h] at hb ⊢
      simp only [List.length_cons, List.length_nil, pow_one, Nat.zero_add] at hb ⊢
      have hd := charDigit_digitChar n h
      have hov : ¬ maxVal < acc * 10 + n := by omega
      simp [parseDigits, hd, hov]
    · have h10 : 10 ≤ n := by omega
      rw [natDigits_step n h10] at hb ⊢
      simp only [List.length_append, List.length_cons, List.length_nil] at hb ⊢
      have hlenpow : 10 ^ ((natDigits (n / 10)).length + 1)
          = 10 ^ (natDigits (n / 10)).length * 10 := by ring
      rw [hlenpow] at hb ⊢
      rw [show acc * (10 ^ (natDigits (n / 10)).length * 10)
          = acc * 10 ^ (natDigits (n / 10)).length * 10 from by ring] at hb ⊢
      have hb1 : acc * 10 ^ (natDigits (n / 10)).length + n / 10 ≤ maxVal := by omega
      have hrec := ih (n / 10) (Nat.div_lt_self (by omega) (by omega)) acc hb1
      rw [parseDigits_append, hrec]
      have hd := charDigit_digitChar (n % 10) (Nat.mod_lt _ (by omega))
      have hov : ¬ maxVal
          < (acc * 10 ^ (natDigits (n / 10)).length + n / 10) * 10 + n % 10 := by omega
      simp only [parseDigits, hd]
      rw [if_neg hov]
      have heq : (acc * 10 ^ (natDigits (n / 10)).length + n / 10) * 10 + n % 10
          = acc * 10 ^ (natDigits (n / 10)).length * 10 + n := by omega
      simp only [parseDigits, heq]

theorem not_sign_of_digit (c : Char) (h : 48 ≤ c.toNat ∧ c.toNat ≤ 57) :
    c ≠ '+' ∧ c ≠ '-' := by
  constructor <;> intro heq <;> subst heq <;> simp_all

theorem parseInt64_natDigits (n : Nat) (h : n ≤ 2 ^ 63 - 1) :
    parseInt64 (natDigits n) = ((n : Int), none) := by
  cases hnd : natDigits n with
  | nil => exact absurd hnd (natDigits_ne_nil n)
  | cons c rest =>
    have hcb : 48 ≤ c.toNat ∧ c.toNat ≤ 57 := by
      apply natDigits_digit_bound n
      rw [hnd]; simp
    have hsign := not_sign_of_digit c hcb
    have hparse : parseDigits (2 ^ 64 - 1) 0 (natDigits n) = (n, none) := by
      have := parseDigits_natDigits (2 ^ 64 - 1) n 0 (by
        simp only [Nat.zero_mul, Nat.zero_add]
        omega)
      simpa using this
    rw [hnd] at hparse
    simp only [parseInt64, if_neg hsign.1, if_neg hsign.2]
    rw [parseSigned, if_neg (by simp), hparse]
    have hlt : ¬ 2 ^ 63 ≤ n := by omega
    simp [hlt]
    omega

theorem natDigits_split1000 (n : Nat) (h : 1000 ≤ n) :
    natDigits n = natDigits (n / 1000)
      ++ [digitChar (n / 100 % 10), digitChar (n / 10 % 10), digitChar (n % 10)] := by
  rw [natDigits_step n (by omega), natDigits_step (n / 10) (by omega),
    natDigits_step (n / 10 / 10) (by omega)]
  rw [show n / 10 / 10 / 10 = n / 1000 from by omega,
    show n / 10 / 10 % 10 = n / 100 % 10 from by omega]
  simp

theorem natDigits_length3 (n : Nat) (h1 : 100 ≤ n) (h2 : n ≤ 999) :
    (natDigits n).length = 3 := by
  rw [natDigits_step n (by omega), natDigits_step (n / 10) (by omega),
    natDigits_small (n / 10 / 10) (by omega)]
  simp

theorem natDigits_length_le2 (n : Nat) (h : n ≤ 99) :
    (natDigits n).length ≤ 2 := by
  by_cases h10 : n < 10
  · rw [natDigits_small n h10]; simp
  · rw [natDigits_step n (by omega), natDigits_small (n / 10) (by omega)]
    simp

/-- C10: `ReceivedTime` truncates milliseconds to seconds for inputs with at
least four decimal digits, fails with a `strconv` syntax error for three-digit
inputs (the truncated string is empty), and panics for inputs of at most two
decimal digits (negative slice bound).  `2 ^ 63 - 1` is int64's upper bound,
the Go domain of the argument. -/
theorem receivedTime_ranges (d : Int) :
    (1000 ≤ d → d ≤ 2 ^ 63 - 1 → ReceivedTime d = some (d / 1000, none)) ∧
    (100 ≤ d → d ≤ 999 → ReceivedTime d = some (0, some GoErr.numSyntax)) ∧
    (0 ≤ d → d ≤ 99 → ReceivedTime d = none) := by
  refine ⟨fun h1 h2 => ?_, fun h1 h2 => ?_, fun h1 h2 => ?_⟩
  · have hd0 : ¬ d < 0 := by omega
    have hn1000 : 1000 ≤ d.natAbs := by omega
    have hsplit := natDigits_split1000 d.natAbs hn1000
    have hlen : (natDigits d.natAbs).length = (natDigits (d.natAbs / 1000)).length + 3 := by
      rw [hsplit]; simp
    have hpos := natDigits_length_pos (d.natAbs / 1000)
    rw [ReceivedTime]
    simp only [formatInt, if_neg hd0, hlen]
    rw [if_neg (by omega)]
    have htake : (natDigits d.natAbs).take ((natDigits (d.natAbs / 1000)).length + 3 - 3)
        = natDigits (d.natAbs / 1000) := by
      rw [hsplit]
      simp
    rw [htake, parseInt64_natDigits (d.natAbs / 1000) (by omega)]
    have hdiv : ((d.natAbs / 1000 : Nat) : Int) = d / 1000 := by omega
    rw [hdiv]
  · have hd0 : ¬ d < 0 := by omega
    have hlen3 : (natDigits d.natAbs).length = 3 := natDigits_length3 d.natAbs (by omega) (by omega)
    rw [ReceivedTime]
    simp only [formatInt, if_neg hd0, hlen3]
    rw [if_neg (by omega)]
    simp [parseInt64]
  · have hd0 : ¬ d < 0 := by omega
    have hlen : (natDigits d.natAbs).length ≤ 2 := natDigits_length_le2 d.natAbs (by omega)
    rw [ReceivedTime]
    simp only [formatInt, if_neg hd0]
    rw [if_pos (by omega)]

theorem receivedTime_ranges_witness :
    ReceivedTime 1234567 = some (1234, none) ∧
    ReceivedTime 567 = some (0, some GoErr.numSyntax) ∧
    ReceivedTime 42 = none :=
  ⟨by rw [(receivedTime_ranges 1234567).1 (by omega) (by omega)]; norm_num,
   (receivedTime_ranges 567).2.1 (by omega) (by omega),
   (receivedTime_ranges 42).2.2 (by omega) (by omega)⟩

theorem getBodyLoop_eq_firstMatch (mt : String) (parts : List MessagePart) :
    getBodyLoop mt parts =
      match firstMatch mt parts with
      | some p => decodeEmailBody p.body.data
      | none => Except.error (GoErr.notFound "Couldn't Read Body") := by
  induction parts with
  | nil => rfl
  | cons v rest ih =>
    rw [getBodyLoop, firstMatch]
    cases hv : (if v.mimeType == "multipart/alternative"
        then v.parts.find? (isMatch mt) else none) with
    | some l => rfl
    | none =>
      by_cases hm : isMatch mt v = true
      · simp [hm]
      · simp [hm, ih]

theorem firstMatch_eq_none_iff (mt : String) (parts : List MessagePart) :
    firstMatch mt parts = none ↔ hasMatch mt parts = false := by
  induction parts with
  | nil => simp [firstMatch, hasMatch]
  | cons v rest ih =>
    rw [firstMatch, hasMatch]
    by_cases hmp : (v.mimeType == "multipart/alternative") = true
    · cases hf : v.parts.find? (isMatch mt) with
      | some l =>
        have hl := List.find?_some hf
        have hmem := List.mem_of_find?_eq_some hf
        have hany : v.parts.any (isMatch mt) = true := List.any_eq_true.mpr ⟨l, hmem, hl⟩
        simp [hmp, hf, hany]
      | none =>
        have hany : v.parts.any (isMatch mt) = false := by
          rw [List.any_eq_false]
          intro x hx
          have := List.find?_eq_none.mp hf x hx
          simpa using this
        by_cases hm : isMatch mt v = true
        · simp [hmp, hf, hany, hm]
        · simp only [Bool.not_eq_true] at hm
          simp [hmp, hf, hany, hm, ih]
    · have hmpf : (v.mimeType == "multipart/alternative") = false := by
        simpa using hmp
      by_cases hm : isMatch mt v = true
      · simp [hmpf, hm]
      · simp only [Bool.not_eq_true] at hm
        simp [hmpf, hm, ih]

/-- C1 counterexample: a message whose only top-level part matches the
requested MIME type with non-empty size (so a match exists in the claim's
sense), yet `GetBody` neither succeeds nor returns the not-found sentinel: it
returns the base64 decode error, because the matching part's data is not
valid base64url. -/
theorem getBody_match_but_decode_error :
    hasMatch "text/plain" badB64Msg.payload.parts = true ∧
    GetBody badB64Msg "text/plain" = .error .corruptBase64 ∧
    GetBody badB64Msg "text/plain" ≠ .error (.notFound "Couldn't Read Body") := by
  refine ⟨rfl, rfl, fun hcontra => ?_⟩
  have h1 : GetBody badB64Msg "text/plain" = Except.error GoErr.corruptBase64 := rfl
  rw [h1] at hcontra
  exact GoErr.noConfusion (Except.error.inj hcontra)

/-- C1 (amended): `GetBody` fails with the generic not-found sentinel iff no
payload part of non-empty size matches the requested MIME type at the top
level or exactly one level inside a top-level `multipart/alternative` part;
otherwise it returns the base64url decode result of the first match in scan
order (the inside of a `multipart/alternative` part examined before the
part's own direct match) — the decoded bytes when the data decodes, the
decode error (not the sentinel) when it does not.  In particular, on a
message whose only part is `multipart/alternative` with a zero-size
`text/plain` and a non-empty `text/html` sub-part, `text/html` yields the
decoded HTML and `text/plain` the sentinel, and a match nested two multipart
levels deep is never found. -/
theorem getBody_characterization :
    (∀ (msg : GMessage) (mt : String), hasMatch mt msg.payload.parts = false →
      GetBody msg mt = .error (.notFound "Couldn't Read Body")) ∧
    (∀ (msg : GMessage) (mt : String) (p : MessagePart),
      firstMatch mt msg.payload.parts = some p →
      GetBody msg mt = decodeEmailBody p.body.data) ∧
    GetBody altMsg "text/html" = .ok [60, 98, 62, 104, 105, 60, 47, 98, 62] ∧
    GetBody altMsg "text/plain" = .error (.notFound "Couldn't Read Body") ∧
    GetBody deepMsg "text/plain" = .error (.notFound "Couldn't Read Body") := by
  refine ⟨fun msg mt h => ?_, fun msg mt p h => ?_, rfl, rfl, rfl⟩
  · rw [GetBody, getBodyLoop_eq_firstMatch,
      (firstMatch_eq_none_iff mt msg.payload.parts).mpr h]
  · rw [GetBody, getBodyLoop_eq_firstMatch, h]

theorem getBody_characterization_witness :
    GetBody altMsg "application/pdf" = .error (.notFound "Couldn't Read Body") ∧
    GetBody deepMsg "text/html" = .error (.notFound "Couldn't Read Body") :=
  ⟨getBody_characterization.1 altMsg "application/pdf" rfl,
   getBody_characterization.1 deepMsg "text/html" rfl⟩

theorem int64Add_of_fits (a b : Int) (h1 : -(2 ^ 63) ≤ a + b) (h2 : a + b ≤ 2 ^ 63 - 1) :
    int64Add a b = a + b := by
  rw [int64Add]
  omega

/-- C4 counterexample: with the legal non-negative int64 counts 2^62 and
2^62, Go's int64 sum wraps: `CheckForUnreadByLabel` returns the negative
value -2^63 together with a nil error, so a negative result is returned
without any error — the claimed negative-iff-error biconditional fails even
for non-negative provider counts. -/
theorem checkForUnread_overflow_cex :
    CheckForUnreadByLabel overflowProvider "UNREAD" = (-(2 ^ 63), none) ∧
    (CheckForUnreadByLabel overflowProvider "UNREAD").1 < 0 ∧
    (CheckForUnreadByLabel overflowProvider "UNREAD").2 = none := by
  refine ⟨?_, by decide, rfl⟩
  rw [show CheckForUnreadByLabel overflowProvider "UNREAD"
      = (int64Add (2 ^ 62) (2 ^ 62), none) from rfl]
  norm_num [int64Add]

/-- C4 (amended): `CheckForUnreadByLabel` returns the int64 (wrapping) sum of
the label's unread message and unread thread counts with a nil error on
success, `(0, nil)` when both counts are zero (zero is a valid, non-error
result), and the sentinel `-1` alongside the error when the fetch fails; for
non-negative provider counts whose true sum fits in int64 (no overflow) the
result is negative iff an error is returned; `CheckForUnread` is the same
computation with the label fixed to `"UNREAD"`. -/
theorem checkForUnread_sum_or_sentinel (srv : Provider) (label : String) :
    (∀ e, srv.labelGet label = .error e →
      CheckForUnreadByLabel srv label = (-1, some e)) ∧
    (∀ L, srv.labelGet label = .ok L →
      CheckForUnreadByLabel srv label
        = (int64Add L.messagesUnread L.threadsUnread, none)) ∧
    (∀ L, srv.labelGet label = .ok L → L.messagesUnread = 0 → L.threadsUnread = 0 →
      CheckForUnreadByLabel srv label = (0, none)) ∧
    CheckForUnread srv = CheckForUnreadByLabel srv "UNREAD" ∧
    ((∀ L, srv.labelGet label = .ok L →
        0 ≤ L.messagesUnread ∧ 0 ≤ L.threadsUnread ∧
        L.messagesUnread + L.threadsUnread ≤ 2 ^ 63 - 1) →
      ((CheckForUnreadByLabel srv label).1 < 0 ↔
        (CheckForUnreadByLabel srv label).2 ≠ none)) := by
  refine ⟨?_, ?_, ?_, rfl, ?_⟩
  · intro e he
    simp [CheckForUnreadByLabel, he]
  · intro L hL
    simp only [CheckForUnreadByLabel, hL]
    by_cases h0 : L.messagesUnread = 0 ∧ L.threadsUnread = 0
    · rw [if_pos h0, h0.1, h0.2]
      norm_num [int64Add]
    · rw [if_neg h0]
  · intro L hL h1 h2
    simp [CheckForUnreadByLabel, hL, h1, h2]
  · intro hpos
    cases hres : srv.labelGet label with
    | error e => simp [CheckForUnreadByLabel, hres]
    | ok L =>
      have hmt := hpos L hres
      simp only [CheckForUnreadByLabel, hres]
      by_cases h0 : L.messagesUnread = 0 ∧ L.threadsUnread = 0
      · rw [if_pos h0]
        simp
      · rw [if_neg h0]
        rw [int64Add_of_fits L.messagesUnread L.threadsUnread (by omega) (by omega)]
        have hns : ¬ (L.messagesUnread + L.threadsUnread < 0) := by omega
        simp [hns]

theorem checkForUnread_sum_or_sentinel_witness :
    CheckForUnread c4Provider = (0, none) ∧
    CheckForUnreadByLabel c4Provider "SPAM" = (-1, some (.remote "no such label")) := by
  constructor
  · rw [(checkForUnread_sum_or_sentinel c4Provider "UNREAD").2.2.2.1,
      (checkForUnread_sum_or_sentinel c4Provider "UNREAD").2.2.1 ⟨0, 0⟩ rfl rfl rfl]
  · exact (checkForUnread_sum_or_sentinel c4Provider "SPAM").1 _ rfl

theorem getByID_all_ok (srv : Provider) (f : String → GMessage) (msgs : List GMessage)
    (h : ∀ m ∈ msgs, srv.msgGet m.id = .ok (f m.id)) :
    getByID srv msgs =
      (msgs.map fun m => Call.get m.id, msgs.map (fun m => f m.id), none) := by
  induction msgs with
  | nil => rfl
  | cons v rest ih =>
    have h1 := h v (by simp)
    simp [getByID, h1, ih (fun m hm => h m (by simp [hm]))]

theorem getByID_stops (srv : Provider) (f : String → GMessage) (e : GoErr)
    (pre : List GMessage) (bad : GMessage) (post : List GMessage)
    (hok : ∀ m ∈ pre, srv.msgGet m.id = .ok (f m.id))
    (hbad : srv.msgGet bad.id = .error e) :
    getByID srv (pre ++ bad :: post) =
      ((pre.map fun m => Call.get m.id) ++ [Call.get bad.id],
       pre.map (fun m => f m.id), some e) := by
  induction pre with
  | nil => simp [getByID, hbad]
  | cons v rest ih =>
    have h1 := hok v (by simp)
    simp [getByID, h1, ih (fun m hm => hok m (by simp [hm]))]

theorem getByID_trace_no_modify (srv : Provider) (msgs : List GMessage) :
    ∀ c ∈ (getByID srv msgs).1, ∀ id req, c ≠ Call.modify id req := by
  induction msgs with
  | nil => simp [getByID]
  | cons v rest ih =>
    cases hv : srv.msgGet v.id with
    | error e => simp [getByID, hv]
    | ok m =>
      simp only [getByID, hv]
      intro c hc id req
      rcases List.mem_cons.mp hc with h1 | h2
      · subst h1; simp
      · exact ih c h2 id req

theorem query_trace_no_modify (srv : Provider) (q : String) :
    ∀ c ∈ (Query srv q).1, ∀ id req, c ≠ Call.modify id req := by
  rw [Query]
  cases hl : srv.listQ q with
  | error e => simp
  | ok inbox =>
    simp only []
    intro c hc id req
    rcases List.mem_cons.mp hc with h1 | h2
    · subst h1; simp
    · exact getByID_trace_no_modify srv inbox.messages c h2 id req

/-- C5: for every successful list response, `Query` and `GetMessages` fetch
each listed ID exactly once, in the provider-assigned order (the call trace
is the list call followed by one get per listed ID, in order, with no other
calls), and return the fully fetched messages in exactly that order with a
nil error; in particular, with zero listed IDs both return an empty list and
a nil error after no fetch at all. -/
theorem query_getMessages_order :
    (∀ (srv : Provider) (q : String) (n : Nat) (resp : ListMessagesResponse)
        (f : String → GMessage),
      (∀ m ∈ resp.messages, srv.msgGet m.id = .ok (f m.id)) →
      (srv.listQ q = .ok resp →
        Query srv q =
          (Call.list q :: resp.messages.map fun m => Call.get m.id,
           some (resp.messages.map (fun m => f m.id), none))) ∧
      (srv.listMax n = .ok resp →
        GetMessages srv n =
          (Call.listMax n :: resp.messages.map fun m => Call.get m.id,
           some (resp.messages.map (fun m => f m.id), none)))) ∧
    (∀ (srv : Provider) (q : String) (n : Nat) (resp : ListMessagesResponse),
      resp.messages = [] →
      (srv.listQ q = .ok resp → Query srv q = ([Call.list q], some ([], none))) ∧
      (srv.listMax n = .ok resp →
        GetMessages srv n = ([Call.listMax n], some ([], none)))) := by
  constructor
  · intro srv q n resp f hf
    constructor
    · intro hq
      simp [Query, hq, getByID_all_ok srv f resp.messages hf]
    · intro hn
      simp [GetMessages, hn, getByID_all_ok srv f resp.messages hf]
  · intro srv q n resp hempty
    constructor
    · intro hq
      simp [Query, hq, hempty, getByID]
    · intro hn
      simp [GetMessages, hn, hempty, getByID]

theorem query_getMessages_order_witness :
    Query oneMsgProvider "is:unread" =
      ([Call.list "is:unread", Call.get "id1"],
       some ([⟨"id1", ⟨[⟨"Subject", "hello"⟩], []⟩⟩], none)) := by
  have h := ((query_getMessages_order).1 oneMsgProvider "is:unread" 1
    ⟨[⟨"id1", ⟨[], []⟩⟩]⟩ (fun i => ⟨i, ⟨[⟨"Subject", "hello"⟩], []⟩⟩)
    (fun m _ => rfl)).1 rfl
  simpa using h

/-- C3 (code behavior at the divergence): when the k-th per-message fetch
fails, both `Query` and `GetMessages` stop at once — the call trace shows
fetches only up to and including the failing ID — and return the first k-1
fully fetched messages alongside that error, with no retry; when the initial
list call fails, `GetMessages` returns that error (with the nil slice), but
`Query` evaluates `inbox.Messages` on the SDK's nil response and panics
instead of returning the error, shown here on a concrete failing provider. -/
theorem query_fetch_error_propagation :
    (∀ (srv : Provider) (q : String) (n : Nat) (resp : ListMessagesResponse)
        (f : String → GMessage) (e : GoErr) (pre : List GMessage) (bad : GMessage)
        (post : List GMessage),
      resp.messages = pre ++ bad :: post →
      (∀ m ∈ pre, srv.msgGet m.id = .ok (f m.id)) →
      srv.msgGet bad.id = .error e →
      (srv.listQ q = .ok resp →
        Query srv q =
          (Call.list q :: ((pre.map fun m => Call.get m.id) ++ [Call.get bad.id]),
           some (pre.map (fun m => f m.id), some e))) ∧
      (srv.listMax n = .ok resp →
        GetMessages srv n =
          (Call.listMax n :: ((pre.map fun m => Call.get m.id) ++ [Call.get bad.id]),
           some (pre.map (fun m => f m.id), some e)))) ∧
    (∀ (srv : Provider) (n : Nat) (e : GoErr),
      srv.listMax n = .error e →
      GetMessages srv n = ([Call.listMax n], some ([], some e))) ∧
    Query listFailProvider "label:UNREAD" = ([Call.list "label:UNREAD"], none) := by
  refine ⟨?_, ?_, rfl⟩
  · intro srv q n resp f e pre bad post hsplit hok hbad
    constructor
    · intro hq
      simp [Query, hq, hsplit, getByID_stops srv f e pre bad post hok hbad]
    · intro hn
      simp [GetMessages, hn, hsplit, getByID_stops srv f e pre bad post hok hbad]
  · intro srv n e hn
    simp [GetMessages, hn]

theorem query_fetch_error_propagation_witness :
    Query fetchFailProvider "q" =
      ([Call.list "q", Call.get "a", Call.get "b"],
       some ([⟨"a", ⟨[], []⟩⟩], some (.remote "rate limited"))) := by
  have h := ((query_fetch_error_propagation).1 fetchFailProvider "q" 2
      ⟨[⟨"a", ⟨[], []⟩⟩, ⟨"b", ⟨[], []⟩⟩]⟩ (fun i => ⟨i, ⟨[], []⟩⟩)
      (.remote "rate limited") [⟨"a", ⟨[], []⟩⟩] ⟨"b", ⟨[], []⟩⟩ [] rfl
      (by intro m hm; simp at hm; subst hm; rfl) rfl).1 rfl
  simpa using h

theorem markLoop_all_ok (srv : Provider) (f : String → GMessage) (msgs : List GMessage)
    (h : ∀ m ∈ msgs, srv.modify m.id unreadReq = .ok (f m.id)) :
    markLoop srv msgs = (msgs.map fun m => Call.modify m.id unreadReq, none) := by
  induction msgs with
  | nil => rfl
  | cons v rest ih =>
    have h1 := h v (by simp)
    simp [markLoop, MarkAs, h1, ih (fun m hm => h m (by simp [hm]))]

theorem markLoop_stops (srv : Provider) (f : String → GMessage) (e : GoErr)
    (pre : List GMessage) (bad : GMessage) (post : List GMessage)
    (hok : ∀ m ∈ pre, srv.modify m.id unreadReq = .ok (f m.id))
    (hbad : srv.modify bad.id unreadReq = .error e) :
    markLoop srv (pre ++ bad :: post) =
      ((pre.map fun m => Call.modify m.id unreadReq) ++ [Call.modify bad.id unreadReq],
       some e) := by
  induction pre with
  | nil => simp [markLoop, MarkAs, hbad]
  | cons v rest ih =>
    have h1 := hok v (by simp)
    simp [markLoop, MarkAs, h1, ih (fun m hm => hok m (by simp [hm]))]

/-- C7 (code behavior at the divergence): when the UNREAD query returns an
error, `MarkAllAsRead` returns exactly that error and its call trace — the
query's own — contains no modify call; after a successful query it issues
exactly one modify per returned message (removing the UNREAD label), in list
order; if the k-th modify fails, that error is returned at once, no modify
after the k-th is issued and the first k-1 are neither rolled back nor
retried (so the returned error does not distinguish partial from total
failure); if every modify succeeds it returns nil.  But when the query's
underlying list call itself fails, `MarkAllAsRead` panics through `Query`'s
nil dereference instead of returning the query error, shown here on a
concrete failing provider. -/
theorem markAllAsRead_behavior :
    (∀ (srv : Provider) (tr : List Call) (msgs : List GMessage) (e : GoErr),
      Query srv "label:UNREAD" = (tr, some (msgs, some e)) →
      MarkAllAsRead srv = (tr, some (some e)) ∧
      ∀ c ∈ tr, ∀ id req, c ≠ Call.modify id req) ∧
    (∀ (srv : Provider) (tr : List Call) (f : String → GMessage) (e : GoErr)
        (pre : List GMessage) (bad : GMessage) (post : List GMessage),
      Query srv "label:UNREAD" = (tr, some (pre ++ bad :: post, none)) →
      (∀ m ∈ pre, srv.modify m.id unreadReq = .ok (f m.id)) →
      srv.modify bad.id unreadReq = .error e →
      MarkAllAsRead srv =
        (tr ++ ((pre.map fun m => Call.modify m.id unreadReq)
          ++ [Call.modify bad.id unreadReq]), some (some e))) ∧
    (∀ (srv : Provider) (tr : List Call) (f : String → GMessage) (msgs : List GMessage),
      Query srv "label:UNREAD" = (tr, some (msgs, none)) →
      (∀ m ∈ msgs, srv.modify m.id unreadReq = .ok (f m.id)) →
      MarkAllAsRead srv =
        (tr ++ msgs.map fun m => Call.modify m.id unreadReq, some none)) ∧
    MarkAllAsRead listFailProvider = ([Call.list "label:UNREAD"], none) := by
  refine ⟨?_, ?_, ?_, rfl⟩
  · intro srv tr msgs e hq
    refine ⟨by simp [MarkAllAsRead, hq], ?_⟩
    intro c hc id req
    have htr : tr = (Query srv "label:UNREAD").1 := by rw [hq]
    exact query_trace_no_modify srv "label:UNREAD" c (htr ▸ hc) id req
  · intro srv tr f e pre bad post hq hok hbad
    simp [MarkAllAsRead, hq, markLoop_stops srv f e pre bad post hok hbad]
  · intro srv tr f msgs hq hok
    simp [MarkAllAsRead, hq, markLoop_all_ok srv f msgs hok]

theorem markAllAsRead_behavior_witness :
    MarkAllAsRead modifyFailProvider =
      ([Call.list "label:UNREAD", Call.get "a", Call.get "b",
        Call.modify "a" unreadReq, Call.modify "b" unreadReq],
       some (some (.remote "modify failed"))) := by
  have h := (markAllAsRead_behavior).2.1 modifyFailProvider
      [Call.list "label:UNREAD", Call.get "a", Call.get "b"]
      (fun i => ⟨i, ⟨[], []⟩⟩) (.remote "modify failed")
      [⟨"a", ⟨[], []⟩⟩] ⟨"b", ⟨[], []⟩⟩ [] rfl
      (by intro m hm; simp at hm; subst hm; rfl) rfl
  simpa using h

/-- C6: round-trip — for every OAuth token, writing it with the save path
(`saveToken`, JSON-encoding into the cache file, truncating whatever was
there) and then immediately reading that file with the load path
(`tokenFromFile`, JSON-decoding) reconstructs an equivalent token: every
serialized field (access token, token type, refresh token, expiry) of the
read token equals the corresponding field of the written token. -/
theorem token_roundtrip (fs : FileState) (t : Token) :
    tokenFromFile (saveToken fs t) = .ok t := by
  obtain ⟨a, tt, rt, e⟩ := t
  by_cases h1 : tt = ""
  · by_cases h2 : rt = ""
    · subst h1; subst h2; rfl
    · subst h1
      simp only [saveToken, tokenFromFile, marshalToken, if_pos rfl, if_neg h2]
      rfl
  · by_cases h2 : rt = ""
    · subst h2
      simp only [saveToken, tokenFromFile, marshalToken, if_neg h1, if_pos rfl]
      rfl
    · simp only [saveToken, tokenFromFile, marshalToken, if_neg h1, if_neg h2]
      rfl

theorem parseSigned_natDigits_neg (m : Nat) (h : m ≤ 2 ^ 63) :
    parseSigned true (natDigits m) = (-(m : Int), none) := by
  have hne := natDigits_ne_nil m
  rw [parseSigned, if_neg hne]
  have hparse : parseDigits (2 ^ 64 - 1) 0 (natDigits m) = (m, none) := by
    have := parseDigits_natDigits (2 ^ 64 - 1) m 0 (by
      simp only [Nat.zero_mul, Nat.zero_add]
      omega)
    simpa using this
  rw [hparse]
  have hcut2 : ¬ (true = true ∧ 2 ^ 63 < m) := by omega
  simp [hcut2]
  omega

theorem receivedTime_core_cases (d : Int) (h1 : -(2 ^ 63) ≤ d) (h2 : d ≤ 2 ^ 63 - 1)
    (hlen : ¬ (formatInt d).length < 3) :
    parseInt64 ((formatInt d).take ((formatInt d).length - 3))
      = (0, some GoErr.numSyntax) ∨
    (parseInt64 ((formatInt d).take ((formatInt d).length - 3))).2 = none := by
  by_cases hd : d < 0
  · rw [formatInt, if_pos hd] at hlen ⊢
    simp only [List.length_cons] at hlen ⊢
    by_cases hc2 : d.natAbs ≤ 999
    · left
      have hduo : (natDigits d.natAbs).length = 2 ∨ (natDigits d.natAbs).length = 3 := by
        by_cases hc1 : d.natAbs ≤ 99
        · have := natDigits_length_le2 d.natAbs hc1
          omega
        · have := natDigits_length3 d.natAbs (by omega) (by omega)
          omega
      rcases hduo with hdl | hdl
      · rw [hdl]
        simp [parseInt64]
      · rw [hdl]
        simp only [show 3 + 1 - 3 = 1 from rfl, List.take_succ_cons, List.take_zero]
        rfl
    · right
      have hsplit := natDigits_split1000 d.natAbs (by omega)
      have hlen4 : (natDigits d.natAbs).length
          = (natDigits (d.natAbs / 1000)).length + 3 := by
        rw [hsplit]
        simp
      rw [hlen4]
      rw [show (natDigits (d.natAbs / 1000)).length + 3 + 1 - 3
          = (natDigits (d.natAbs / 1000)).length + 1 from by omega]
      rw [List.take_succ_cons, hsplit, List.take_left' rfl]
      have hstep : parseInt64 ('-' :: natDigits (d.natAbs / 1000))
          = parseSigned true (natDigits (d.natAbs / 1000)) := by
        simp [parseInt64]
      rw [hstep, parseSigned_natDigits_neg (d.natAbs / 1000) (by omega)]
  · rw [formatInt, if_neg hd] at hlen ⊢
    by_cases hc2 : d.natAbs ≤ 999
    · left
      have hdl3 : (natDigits d.natAbs).length = 3 := by
        by_cases hc1 : d.natAbs ≤ 99
        · exfalso
          have := natDigits_length_le2 d.natAbs hc1
          omega
        · exact natDigits_length3 d.natAbs (by omega) hc2
      rw [hdl3]
      simp [parseInt64]
    · right
      have hsplit := natDigits_split1000 d.natAbs (by omega)
      have hlen4 : (natDigits d.natAbs).length
          = (natDigits (d.natAbs / 1000)).length + 3 := by
        rw [hsplit]
        simp
      rw [hlen4, Nat.add_sub_cancel, hsplit, List.take_left' rfl]
      rw [parseInt64_natDigits (d.natAbs / 1000) (by omega)]

theorem receivedTime_dup_eq (d : Int) (h1 : -(2 ^ 63) ≤ d) (h2 : d ≤ 2 ^ 63 - 1) :
    Inboxer.ReceivedTime d = Dup.ReceivedTime d := by
  simp only [Inboxer.ReceivedTime, Dup.ReceivedTime]
  by_cases hlen : (formatInt d).length < 3
  · rw [if_pos hlen, if_pos hlen]
  · rw [if_neg hlen, if_neg hlen]
    rcases receivedTime_core_cases d h1 h2 hlen with hp | hp
    · rw [hp]
    · cases hq : parseInt64 ((formatInt d).take ((formatInt d).length - 3)) with
      | mk v err =>
        rw [hq] at hp
        simp only at hp
        subst hp
        rfl

theorem gpmLoop_dup_eq (hs : List MessageHeader) (info : PartialMetadata) :
    Inboxer.gpmLoop info hs = Dup.gpmLoop info hs := by
  induction hs generalizing info with
  | nil => rfl
  | cons v rest ih =>
    rw [Inboxer.gpmLoop, Dup.gpmLoop]
    exact ih _

theorem getBodyLoop_dup_cases (mt : String) (parts : List MessagePart) :
    Inboxer.getBodyLoop mt parts = Dup.getBodyLoop mt parts ∨
    (Inboxer.getBodyLoop mt parts = .error (.notFound "Couldn't Read Body") ∧
     Dup.getBodyLoop mt parts = .error (.notFound "couldn't read body")) := by
  induction parts with
  | nil => exact Or.inr ⟨rfl, rfl⟩
  | cons v rest ih =>
    rw [Inboxer.getBodyLoop, Dup.getBodyLoop]
    cases hv : (if v.mimeType == "multipart/alternative"
        then v.parts.find? (isMatch mt) else none) with
    | some l => exact Or.inl rfl
    | none =>
      by_cases hm : isMatch mt v = true
      · rw [if_pos hm, if_pos hm]
        exact Or.inl rfl
      · rw [if_neg hm, if_neg hm]
        exact ih

/-- C8 counterexample: on a message with no matching part the two `GetBody`
copies return errors with different content — the sentinel text differs in
capitalization ("Couldn't Read Body" vs "couldn't read body") — so the two
copies are not result-identical as the claim states. -/
theorem dup_getBody_sentinel_differs :
    Inboxer.GetBody noMatchMsg "text/plain"
      = .error (.notFound "Couldn't Read Body") ∧
    Dup.GetBody noMatchMsg "text/plain"
      = .error (.notFound "couldn't read body") ∧
    Inboxer.GetBody noMatchMsg "text/plain" ≠ Dup.GetBody noMatchMsg "text/plain" := by
  refine ⟨rfl, rfl, fun hcontra => ?_⟩
  have h1 : Inboxer.GetBody noMatchMsg "text/plain"
      = Except.error (GoErr.notFound "Couldn't Read Body") := rfl
  have h2 : Dup.GetBody noMatchMsg "text/plain"
      = Except.error (GoErr.notFound "couldn't read body") := rfl
  rw [h1, h2] at hcontra
  have h3 := GoErr.notFound.inj (Except.error.inj hcontra)
  exact absurd h3 (by decide)

/-- C8 (amended): the two near-duplicate library copies are result-identical
(same value, same error content) on every input for `GetPartialMetadata`, the
base64url body decoder (`decodeEmailBody` vs `FromBase64`), `ReceivedTime`
(over the int64 domain of its Go argument), and `CheckForUnreadByLabel`; the
two `GetBody` copies also return identical results whenever the scan selects
a part, and differ exactly in the text of the not-found sentinel
("Couldn't Read Body" vs "couldn't read body"). -/
theorem dup_copy_equivalence :
    (∀ msg : GMessage, Inboxer.GetPartialMetadata msg = Dup.GetPartialMetadata msg) ∧
    (∀ data : List Char, decodeEmailBody data = Dup.FromBase64 data) ∧
    (∀ d : Int, -(2 ^ 63) ≤ d → d ≤ 2 ^ 63 - 1 →
      Inboxer.ReceivedTime d = Dup.ReceivedTime d) ∧
    (∀ (srv : Provider) (label : String),
      Inboxer.CheckForUnreadByLabel srv label = Dup.CheckForUnreadByLabel srv label) ∧
    (∀ (msg : GMessage) (mt : String),
      Inboxer.GetBody msg mt = Dup.GetBody msg mt ∨
      (Inboxer.GetBody msg mt = .error (.notFound "Couldn't Read Body") ∧
       Dup.GetBody msg mt = .error (.notFound "couldn't read body"))) := by
  refine ⟨?_, fun _ => rfl, receivedTime_dup_eq, fun _ _ => rfl, ?_⟩
  · intro msg
    exact gpmLoop_dup_eq msg.payload.headers {}
  · intro msg mt
    exact getBodyLoop_dup_cases mt msg.payload.parts

theorem dup_copy_equivalence_witness :
    Inboxer.ReceivedTime (-12345) = Dup.ReceivedTime (-12345) :=
  dup_copy_equivalence.2.2.1 (-12345) (by norm_num) (by norm_num)
